import Mathlib

/-!
Verification development for the netlib auto-login script.

The program under study is src/login.js; the authoritative snapshot is the
final one in that file, VERSION 2026-01-01 v9 (lines 603 to 1219).  Strings
are embedded as List Char (JavaScript strings are sequences of code units;
for the texts handled here the two views agree).  Effectful functions are
embedded as pure functions over explicit oracles describing what the page
shows, and exceptions are embedded with Except.
-/

/-- Whitespace recognised by the JavaScript trim method and by the regex
class for spaces: the ASCII members plus the common Unicode members. -/
def isJsSpace (c : Char) : Bool :=
  c == ' ' || c == '\t' || c == '\n' || c == '\r' || c == '\x0b' || c == '\x0c' ||
  c == '\u00A0' || c == '\uFEFF' || c == '\u2028' || c == '\u2029'

/-- The JavaScript trim method: drop whitespace at both ends. -/
def jsTrim (l : List Char) : List Char :=
  ((l.dropWhile isJsSpace).reverse.dropWhile isJsSpace).reverse

/-- Greedy run of whitespace, as matched by a starred space class. -/
def dropJsSpaces (l : List Char) : List Char := l.dropWhile isJsSpace

/-- Case-sensitive check that pat occurs at the head of l. -/
def startsWithLit : List Char → List Char → Bool
  | [], _ => true
  | _ :: _, [] => false
  | p :: ps, c :: cs => p == c && startsWithLit ps cs

/-- ASCII lower-case code of a character: the case folding performed by a
case-insensitive JavaScript regex on ASCII letters. -/
def lowCode (c : Char) : Nat :=
  if 65 ≤ c.toNat && c.toNat ≤ 90 then c.toNat + 32 else c.toNat

/-- Case-insensitive check that pat occurs at the head of l. -/
def startsWithCI : List Char → List Char → Bool
  | [], _ => true
  | _ :: _, [] => false
  | p :: ps, c :: cs => lowCode p == lowCode c && startsWithCI ps cs

/-- Does the predicate hold at some position (some suffix) of the list. -/
def anyPos (p : List Char → Bool) : List Char → Bool
  | [] => p []
  | c :: cs => p (c :: cs) || anyPos p cs

/-- Substring containment: the JavaScript includes test, and the test that
lastIndexOf returns a non-negative index. -/
def occursIn (pat : List Char) : List Char → Bool
  | [] => startsWithLit pat []
  | c :: cs => startsWithLit pat (c :: cs) || occursIn pat cs

/-- The suffix of l that starts at the LAST occurrence of pat: the composite
of lastIndexOf and slice used at login.js lines 824 and 832.  none when pat
does not occur (the index -1 case). -/
def tailFromLast (pat : List Char) : List Char → Option (List Char)
  | [] => if startsWithLit pat [] then some [] else none
  | c :: cs =>
    match tailFromLast pat cs with
    | some t => some t
    | none => if startsWithLit pat (c :: cs) then some (c :: cs) else none

/-- Split on a carriage-return-newline or bare newline, the line split used
by parseAccounts.  The accumulator holds the current segment reversed. -/
def splitCRLFAux : List Char → List Char → List (List Char)
  | acc, [] => [acc.reverse]
  | acc, '\r' :: '\n' :: rest => acc.reverse :: splitCRLFAux [] rest
  | acc, '\n' :: rest => acc.reverse :: splitCRLFAux [] rest
  | acc, c :: rest => splitCRLFAux (c :: acc) rest

/-- Split on every comma or semicolon, the legacy split used by
parseAccounts. -/
def splitDelimAux : List Char → List Char → List (List Char)
  | acc, [] => [acc.reverse]
  | acc, c :: rest =>
    if c == ',' || c == ';' then acc.reverse :: splitDelimAux [] rest
    else splitDelimAux (c :: acc) rest

/-- Split a record at its FIRST colon: indexOf followed by the two slices,
as in login.js lines 694 to 697.  none when there is no colon. -/
def splitFirstColonAux : List Char → List Char → Option (List Char × List Char)
  | _, [] => none
  | acc, ':' :: rest => some (acc.reverse, rest)
  | acc, c :: rest => splitFirstColonAux (c :: acc) rest

/-- Embeds parseAccounts, the delimited-text fallback parser of the v9
snapshot (login.js lines 674 to 701): trim the raw value; split into records
on newlines when a newline is present, otherwise on commas or semicolons;
trim each record; split each record at its first colon; trim the user part
but not the secret part; keep pairs whose user and secret are non-empty. -/
def parseAccounts (raw : List Char) : List (List Char × List Char) :=
  let trimmed := jsTrim raw
  if trimmed.isEmpty then []
  else
    let items :=
      if trimmed.any (fun c => c == '\r' || c == '\n') then
        ((splitCRLFAux [] trimmed).map jsTrim).filter (fun s => !s.isEmpty)
      else
        ((splitDelimAux [] trimmed).map jsTrim).filter (fun s => !s.isEmpty)
    items.filterMap (fun item =>
      match splitFirstColonAux [] item with
      | none => none
      | some (u, p) =>
        let user := jsTrim u
        if user.isEmpty then none
        else if p.isEmpty then none
        else some (user, p))

/-- The verdict enum of the log-stream channel. -/
inductive LogVerdict where
  | NONE
  | UNKNOWN
  | SUCCESS
  | FAIL_INVALID
deriving DecidableEq

/-- The per-attempt anchor string built at login.js line 823. -/
def anchorOf (user : List Char) : List Char :=
  "authenticate (login: ".data ++ user ++ ")".data

/-- The credential-failure marker regex of login.js line 836 matches at this
position: the word Error, a colon, any run of whitespace, then the phrase
Invalid credentials, all case-insensitively (the optional trailing period
does not affect whether the regex matches). -/
def invalidMarkerAt (l : List Char) : Bool :=
  startsWithCI "Error:".data l &&
  startsWithCI "Invalid credentials".data (dropJsSpaces (l.drop 6))

/-- The test of the credential-failure marker regex on a text. -/
def hasInvalid (l : List Char) : Bool := anyPos invalidMarkerAt l

/-- The test of the authd success marker regex of login.js line 837. -/
def hasAuthd (l : List Char) : Bool :=
  anyPos (startsWithCI "Authenticated to authd.".data) l

/-- The test of the dnsmanagerd success marker regex of login.js line 838. -/
def hasDns (l : List Char) : Bool :=
  anyPos (startsWithCI "Authenticated to dnsmanagerd.".data) l

/-- Embeds getLoginVerdictFromLogs (login.js lines 821 to 843): find the
last occurrence of the anchor in the body text; NONE when absent; otherwise
test the text from the anchor onward for the failure marker first, then for
the two success markers, else UNKNOWN. -/
def getLoginVerdictFromLogs (user body : List Char) : LogVerdict :=
  match tailFromLast (anchorOf user) body with
  | none => LogVerdict.NONE
  | some tail =>
    if hasInvalid tail then LogVerdict.FAIL_INVALID
    else if hasAuthd tail && hasDns tail then LogVerdict.SUCCESS
    else LogVerdict.UNKNOWN

theorem tailFromLast_isSome (pat : List Char) :
    ∀ l : List Char, (tailFromLast pat l).isSome = occursIn pat l := by
  intro l
  induction l with
  | nil =>
    unfold tailFromLast occursIn
    by_cases h : startsWithLit pat [] = true
    · simp [h]
    · simp [Bool.not_eq_true] at h
      simp [h]
  | cons c cs ih =>
    unfold tailFromLast occursIn
    cases hc : tailFromLast pat cs with
    | some t =>
      have hocc : occursIn pat cs = true := by rw [← ih, hc]; rfl
      simp [hocc]
    | none =>
      have hocc : occursIn pat cs = false := by rw [← ih, hc]; rfl
      by_cases h : startsWithLit pat (c :: cs) = true
      · simp [h, hocc]
      · simp [Bool.not_eq_true] at h
        simp [h, hocc]

theorem tailFromLast_none (pat : List Char) :
    ∀ l : List Char, tailFromLast pat l = none →
      ∀ u, u <:+ l → startsWithLit pat u = false := by
  intro l
  induction l with
  | nil =>
    intro h u hu
    rw [List.suffix_nil.mp hu]
    unfold tailFromLast at h
    by_cases hp : startsWithLit pat [] = true
    · rw [if_pos hp] at h; exact absurd h (by simp)
    · simpa [Bool.not_eq_true] using hp
  | cons c cs ih =>
    intro h u hu
    unfold tailFromLast at h
    cases hc : tailFromLast pat cs with
    | some t => rw [hc] at h; exact absurd h (by simp)
    | none =>
      rw [hc] at h
      rcases List.suffix_cons_iff.mp hu with heq | hsuf
      · subst heq
        by_cases hp : startsWithLit pat (c :: cs) = true
        · rw [if_pos hp] at h; exact absurd h (by simp)
        · simpa [Bool.not_eq_true] using hp
      · exact ih hc u hsuf

theorem tailFromLast_spec (pat : List Char) :
    ∀ l t, tailFromLast pat l = some t →
      t <:+ l ∧ startsWithLit pat t = true ∧
      ∀ u, u <:+ l → startsWithLit pat u = true → t.length ≤ u.length := by
  intro l
  induction l with
  | nil =>
    intro t h
    unfold tailFromLast at h
    by_cases hp : startsWithLit pat [] = true
    · rw [if_pos hp] at h
      cases h
      exact ⟨List.suffix_rfl, hp, fun u _ _ => Nat.zero_le _⟩
    · rw [if_neg hp] at h; exact absurd h (by simp)
  | cons c cs ih =>
    intro t h
    unfold tailFromLast at h
    cases hc : tailFromLast pat cs with
    | some t0 =>
      rw [hc] at h
      cases h
      obtain ⟨h1, h2, h3⟩ := ih t hc
      refine ⟨h1.trans (List.suffix_cons c cs), h2, ?_⟩
      intro u hu hpu
      rcases List.suffix_cons_iff.mp hu with heq | hsuf
      · subst heq
        exact Nat.le_trans h1.length_le (by simp)
      · exact h3 u hsuf hpu
    | none =>
      rw [hc] at h
      by_cases hp : startsWithLit pat (c :: cs) = true
      · rw [if_pos hp] at h
        cases h
        refine ⟨List.suffix_rfl, hp, ?_⟩
        intro u hu hpu
        rcases List.suffix_cons_iff.mp hu with heq | hsuf
        · subst heq; exact Nat.le_refl _
        · exact absurd hpu (by simp [tailFromLast_none pat cs hc u hsuf])
      · rw [if_neg hp] at h; exact absurd h (by simp)

theorem getLoginVerdict_of_tail (user body t : List Char)
    (hc : tailFromLast (anchorOf user) body = some t) :
    getLoginVerdictFromLogs user body =
      (if hasInvalid t then LogVerdict.FAIL_INVALID
       else if hasAuthd t && hasDns t then LogVerdict.SUCCESS
       else LogVerdict.UNKNOWN) := by
  unfold getLoginVerdictFromLogs
  rw [hc]

theorem getLoginVerdict_of_no_tail (user body : List Char)
    (hc : tailFromLast (anchorOf user) body = none) :
    getLoginVerdictFromLogs user body = LogVerdict.NONE := by
  unfold getLoginVerdictFromLogs
  rw [hc]

/-- The two-anchor transcript from the specification: an earlier failed
authentication event of the same identity precedes the successful one. -/
def specTranscript : List Char :=
  "...authenticate (login: alice)\nError: Invalid credentials.\n...authenticate (login: alice)\nAuthenticated to authd.\nAuthenticated to dnsmanagerd.\n".data

/-- C2: the log-stream channel evaluates only the text starting at the last
occurrence of the anchor: it returns FAIL_INVALID exactly when the failure
marker occurs at or after that last anchor, returns SUCCESS only when both
success markers occur at or after it, the tail it inspects is the shortest
suffix of the body at which the anchor occurs (the last occurrence), and the
two-anchor transcript of the specification resolves to SUCCESS. -/
theorem log_channel_uses_last_anchor (user body : List Char) :
    (getLoginVerdictFromLogs user body = LogVerdict.FAIL_INVALID ↔
      ∃ t, tailFromLast (anchorOf user) body = some t ∧ hasInvalid t = true)
  ∧ (getLoginVerdictFromLogs user body = LogVerdict.SUCCESS →
      ∃ t, tailFromLast (anchorOf user) body = some t ∧
        hasAuthd t = true ∧ hasDns t = true)
  ∧ (∀ t, tailFromLast (anchorOf user) body = some t →
      t <:+ body ∧ startsWithLit (anchorOf user) t = true ∧
      ∀ u, u <:+ body → startsWithLit (anchorOf user) u = true →
        t.length ≤ u.length)
  ∧ getLoginVerdictFromLogs "alice".data specTranscript = LogVerdict.SUCCESS := by
  refine ⟨⟨?_, ?_⟩, ?_, ?_, by decide⟩
  · intro h
    cases hc : tailFromLast (anchorOf user) body with
    | none => rw [getLoginVerdict_of_no_tail user body hc] at h; exact absurd h (by simp)
    | some t =>
      rw [getLoginVerdict_of_tail user body t hc] at h
      by_cases hi : hasInvalid t = true
      · exact ⟨t, rfl, hi⟩
      · rw [if_neg hi] at h
        split at h <;> exact absurd h (by simp)
  · rintro ⟨t, hc, hi⟩
    rw [getLoginVerdict_of_tail user body t hc, if_pos hi]
  · intro h
    cases hc : tailFromLast (anchorOf user) body with
    | none => rw [getLoginVerdict_of_no_tail user body hc] at h; exact absurd h (by simp)
    | some t =>
      rw [getLoginVerdict_of_tail user body t hc] at h
      by_cases hi : hasInvalid t = true
      · rw [if_pos hi] at h; exact absurd h (by simp)
      · rw [if_neg hi] at h
        by_cases ha : (hasAuthd t && hasDns t) = true
        · obtain ⟨h1, h2⟩ := Bool.and_eq_true_iff.mp ha
          exact ⟨t, rfl, h1, h2⟩
        · rw [if_neg ha] at h
          exact absurd h (by simp)
  · intro t h
    exact tailFromLast_spec (anchorOf user) body t h

/-- Witness for C2: a one-anchor transcript whose tail carries the failure
marker is classified FAIL_INVALID by the channel. -/
theorem log_channel_uses_last_anchor_witness :
    getLoginVerdictFromLogs "alice".data
      "authenticate (login: alice)\nError: Invalid credentials.\n".data =
      LogVerdict.FAIL_INVALID :=
  (log_channel_uses_last_anchor "alice".data
      "authenticate (login: alice)\nError: Invalid credentials.\n".data).1.mpr
    ⟨"authenticate (login: alice)\nError: Invalid credentials.\n".data,
      by decide, by decide⟩

/-- C8: when the anchor does not occur anywhere in the body text the channel
reports NONE, and UNKNOWN is possible only when the anchor is present while
the inspected tail carries neither the failure marker nor both success
markers. -/
theorem log_channel_none_when_no_anchor (user body : List Char) :
    (occursIn (anchorOf user) body = false →
      getLoginVerdictFromLogs user body = LogVerdict.NONE)
  ∧ (getLoginVerdictFromLogs user body = LogVerdict.UNKNOWN →
      occursIn (anchorOf user) body = true ∧
      ∃ t, tailFromLast (anchorOf user) body = some t ∧
        hasInvalid t = false ∧ (hasAuthd t && hasDns t) = false) := by
  constructor
  · intro h
    cases hc : tailFromLast (anchorOf user) body with
    | none => exact getLoginVerdict_of_no_tail user body hc
    | some t =>
      have hs := tailFromLast_isSome (anchorOf user) body
      rw [hc, h] at hs
      exact absurd hs (by simp)
  · intro h
    cases hc : tailFromLast (anchorOf user) body with
    | none => rw [getLoginVerdict_of_no_tail user body hc] at h; exact absurd h (by simp)
    | some t =>
      have hocc : occursIn (anchorOf user) body = true := by
        rw [← tailFromLast_isSome (anchorOf user) body, hc]
        rfl
      rw [getLoginVerdict_of_tail user body t hc] at h
      by_cases hi : hasInvalid t = true
      · rw [if_pos hi] at h; exact absurd h (by simp)
      · by_cases ha : (hasAuthd t && hasDns t) = true
        · rw [if_neg hi, if_pos ha] at h
          exact absurd h (by simp)
        · exact ⟨hocc, t, rfl, by simpa using hi, by simpa using ha⟩

/-- Witness for C8: a body without the anchor yields NONE. -/
theorem log_channel_none_when_no_anchor_witness :
    getLoginVerdictFromLogs "alice".data "no anchor in this text".data =
      LogVerdict.NONE :=
  (log_channel_none_when_no_anchor "alice".data
      "no anchor in this text".data).1 (by decide)

/-- C10: inside the log-stream channel failure dominates success: when the
tail after the last anchor carries the failure marker and both success
markers, the channel returns FAIL_INVALID. -/
theorem log_failure_checked_first (user body t : List Char)
    (ht : tailFromLast (anchorOf user) body = some t)
    (h1 : hasInvalid t = true) (h2 : hasAuthd t = true) (h3 : hasDns t = true) :
    getLoginVerdictFromLogs user body = LogVerdict.FAIL_INVALID := by
  have h23 : (hasAuthd t && hasDns t) = true := by rw [h2, h3]; rfl
  rw [getLoginVerdict_of_tail user body t ht, if_pos h1]

/-- A transcript carrying the failure marker and both success markers after
its single anchor. -/
def mixedTranscript : List Char :=
  "authenticate (login: alice)\nError: Invalid credentials.\nAuthenticated to authd.\nAuthenticated to dnsmanagerd.\n".data

/-- Witness for C10: on the mixed transcript the channel answers
FAIL_INVALID even though both success markers are present. -/
theorem log_failure_checked_first_witness :
    getLoginVerdictFromLogs "alice".data mixedTranscript =
      LogVerdict.FAIL_INVALID :=
  log_failure_checked_first "alice".data mixedTranscript mixedTranscript
    (by decide) (by decide) (by decide) (by decide)

/-- C3 (code-bug evidence): on the newline-delimited raw value
alice:p:q SPACE NEWLINE bob:pw the parser splits at the first colon and
keeps the inner colon of the secret, but the record-level trim has already
removed the trailing space, so the secret p:q with a trailing space is NOT
preserved verbatim. -/
theorem parseAccounts_drops_trailing_space :
    parseAccounts "alice:p:q \nbob:pw".data =
      [("alice".data, "p:q".data), ("bob".data, "pw".data)]
  ∧ "p:q".data ≠ "p:q ".data :=
  ⟨by decide, by decide⟩

/-- The truncation marker appended by sendTelegram. -/
def truncationMarker : String := "\n\n...(truncated)"

/-- Embeds the text computation of sendTelegram (login.js lines 750 to 754):
messages longer than 3800 characters are cut at 3800 and the truncation
marker is appended; shorter messages are delivered unchanged. -/
def sendTelegramText (message : String) : String :=
  if message.length > 3800 then message.take 3800 ++ truncationMarker
  else message

/-- C9: the delivered notification text is the first 3800 characters of the
message followed by the truncation marker when the message exceeds the 3800
character limit, and the message itself otherwise. -/
theorem telegram_truncation (message : String) :
    (3800 < message.length →
      sendTelegramText message = message.take 3800 ++ truncationMarker)
  ∧ (message.length ≤ 3800 → sendTelegramText message = message) := by
  constructor
  · intro h
    unfold sendTelegramText
    rw [if_pos h]
  · intro h
    unfold sendTelegramText
    rw [if_neg (by omega)]

/-- Witness for C9: a 3801-character message is truncated and marked, and a
short message passes through unchanged. -/
theorem telegram_truncation_witness :
    (sendTelegramText (String.mk (List.replicate 3801 'a')) =
      (String.mk (List.replicate 3801 'a')).take 3800 ++ truncationMarker)
  ∧ sendTelegramText "ok" = "ok" :=
  ⟨(telegram_truncation (String.mk (List.replicate 3801 'a'))).1
      (by show 3800 < (List.replicate 3801 'a').length
          rw [List.length_replicate]
          omega),
    (telegram_truncation "ok").2 (by decide)⟩

/-- The verdict enum assigned to one attempt. -/
inductive Status where
  | SUCCESS
  | FAIL_INVALID
  | FAIL_UNKNOWN
  | ERROR
deriving DecidableEq

/-- The evidence snapshot gathered before the terminal decision
(login.js lines 1073 to 1085). -/
structure EvidenceS where
  disconnected : Bool
  topInvalid : Bool
  uiMyDomains : Bool
  uiOwnerText : Bool
  logsVerdict : LogVerdict

/-- The status and success flag of one attempt result. -/
structure LoginResult where
  status : Status
  success : Bool
deriving DecidableEq

/-- Embeds the terminal decision rule of loginWithAccount (login.js lines
1091 to 1120): top banner or log failure first, then UI success or log
success, else unknown. -/
def decideVerdict (ev : EvidenceS) : LoginResult :=
  if ev.topInvalid || (ev.logsVerdict == LogVerdict.FAIL_INVALID) then
    { status := Status.FAIL_INVALID, success := false }
  else if (ev.uiMyDomains || ev.uiOwnerText) || (ev.logsVerdict == LogVerdict.SUCCESS) then
    { status := Status.SUCCESS, success := true }
  else
    { status := Status.FAIL_UNKNOWN, success := false }

/-- The observations that steer one attempt of the v9 loginWithAccount:
whether the readiness gate reported the home view usable, whether the page
was a not-found page after navigation, whether the username input became
visible, and the final evidence sample. -/
structure AttemptObs where
  homeReady : Bool
  notFoundAfterNav : Bool
  userInputVisible : Bool
  finalEvidence : EvidenceS

/-- Embeds the branch structure of the try body of loginWithAccount
(login.js lines 978 to 1120): the three early FAIL_UNKNOWN returns, then
the terminal decision rule on the final evidence sample. -/
def attemptResult (o : AttemptObs) : LoginResult :=
  if !o.homeReady then { status := Status.FAIL_UNKNOWN, success := false }
  else if o.notFoundAfterNav then { status := Status.FAIL_UNKNOWN, success := false }
  else if !o.userInputVisible then { status := Status.FAIL_UNKNOWN, success := false }
  else decideVerdict o.finalEvidence

/-- Embeds the attempt boundary of loginWithAccount (login.js lines 1122 to
1136): an exception thrown anywhere inside the try body is caught and
converted into a returned result with status ERROR; the function itself
never throws. -/
def loginWithAccount (outcome : Except String AttemptObs) : LoginResult :=
  match outcome with
  | Except.error _ => { status := Status.ERROR, success := false }
  | Except.ok o => attemptResult o

/-- Embeds the aggregator loop of main (login.js lines 1181 to 1192): every
account is processed in order and its result collected. -/
def runAll (outcomes : List (Except String AttemptObs)) : List LoginResult :=
  outcomes.map loginWithAccount

/-- C1: at terminal resolution, failure evidence from either channel
dominates: when the final evidence sample has the top-level failure banner
visible or the log-stream verdict FAIL_INVALID, the attempt status is
FAIL_INVALID and never SUCCESS, whatever the remaining evidence fields. -/
theorem verdict_failure_dominance (o : AttemptObs)
    (h1 : o.homeReady = true) (h2 : o.notFoundAfterNav = false)
    (h3 : o.userInputVisible = true)
    (h4 : o.finalEvidence.topInvalid = true ∨
          o.finalEvidence.logsVerdict = LogVerdict.FAIL_INVALID) :
    (attemptResult o).status = Status.FAIL_INVALID ∧
    (attemptResult o).status ≠ Status.SUCCESS := by
  have hcond : (o.finalEvidence.topInvalid ||
      (o.finalEvidence.logsVerdict == LogVerdict.FAIL_INVALID)) = true := by
    rcases h4 with h | h <;> simp [h]
  have hres : attemptResult o = { status := Status.FAIL_INVALID, success := false } := by
    unfold attemptResult decideVerdict
    rw [h1, h2, h3]
    simp [hcond]
  rw [hres]
  exact ⟨rfl, by simp⟩

/-- Witness for C1: a resolved attempt whose final sample shows the top
banner together with every success signal still resolves FAIL_INVALID. -/
theorem verdict_failure_dominance_witness :
    (attemptResult ⟨true, false, true, ⟨false, true, true, true, LogVerdict.SUCCESS⟩⟩).status =
      Status.FAIL_INVALID :=
  (verdict_failure_dominance
    ⟨true, false, true, ⟨false, true, true, true, LogVerdict.SUCCESS⟩⟩
    rfl rfl rfl (Or.inl rfl)).1

/-- C6: an exception inside one attempt is converted at the attempt boundary
into a result with status ERROR, and the aggregator loop still produces one
result per credential. -/
theorem attempt_exceptions_contained (outcomes : List (Except String AttemptObs)) :
    (runAll outcomes).length = outcomes.length
  ∧ ∀ (i : Nat) (e : String), outcomes[i]? = some (Except.error e) →
      (runAll outcomes)[i]? = some { status := Status.ERROR, success := false } := by
  constructor
  · exact List.length_map outcomes loginWithAccount
  · intro i e h
    unfold runAll
    rw [List.getElem?_map, h]
    rfl

/-- Witness for C6: a two-credential run whose first attempt throws still
yields two results, the first of which is ERROR. -/
theorem attempt_exceptions_contained_witness :
    (runAll [Except.error "boom",
             Except.ok ⟨true, false, true, ⟨false, false, true, false, LogVerdict.SUCCESS⟩⟩]).length = 2
  ∧ (runAll [Except.error "boom",
             Except.ok ⟨true, false, true, ⟨false, false, true, false, LogVerdict.SUCCESS⟩⟩])[0]? =
      some { status := Status.ERROR, success := false } :=
  ⟨(attempt_exceptions_contained _).1,
    (attempt_exceptions_contained _).2 0 "boom" rfl⟩

/-- Embeds the polling loop of waitForDisconnectedGone (login.js lines 773
to 782) under the timing model in which iteration k starts 400k
milliseconds after the loop began: while the elapsed time is below the
timeout, sample the overlay; the first invisible sample returns true;
exhausting the window returns false.  The fuel bounds the iteration count
and is large enough for the guard to stop the loop first. -/
def wfdgAux (overlayVisible : Nat → Bool) (timeoutMs : Nat) : Nat → Nat → Bool
  | 0, _ => false
  | fuel + 1, k =>
    if 400 * k < timeoutMs then
      if overlayVisible k then wfdgAux overlayVisible timeoutMs fuel (k + 1)
      else true
    else false

/-- waitForDisconnectedGone: true when the overlay cleared within the
window, false when the window was exhausted; it never throws. -/
def waitForDisconnectedGone (overlayVisible : Nat → Bool) (timeoutMs : Nat) : Bool :=
  wfdgAux overlayVisible timeoutMs (timeoutMs / 400 + 1) 0

/-- Embeds waitForHomeReady (login.js lines 784 to 788): the wait for the
home indicator can throw on timeout (modelled by the error case); once the
indicator is seen the result is exactly the disconnect wait, which only
returns a boolean. -/
def waitForHomeReady (readNewsVisible : Bool) (overlayVisible : Nat → Bool)
    (timeoutMs : Nat) : Except String Bool :=
  if readNewsVisible then
    Except.ok (waitForDisconnectedGone overlayVisible timeoutMs)
  else Except.error "Timeout waiting for the home indicator"

theorem wfdgAux_all_visible (overlayVisible : Nat → Bool) (timeoutMs : Nat)
    (hv : ∀ k, 400 * k < timeoutMs → overlayVisible k = true) :
    ∀ fuel k, wfdgAux overlayVisible timeoutMs fuel k = false := by
  intro fuel
  induction fuel with
  | zero => intro k; rfl
  | succ n ih =>
    intro k
    unfold wfdgAux
    by_cases h : 400 * k < timeoutMs
    · rw [if_pos h, hv k h, if_pos rfl]
      exact ih (k + 1)
    · rw [if_neg h]

/-- C7: when the disconnect overlay stays visible for the whole window, the
disconnect wait returns false instead of throwing, waitForHomeReady hands
that false back to the caller, and the caller resolves the attempt to
FAIL_UNKNOWN, never to the credential failure status. -/
theorem disconnect_timeout_env (overlayVisible : Nat → Bool) (timeoutMs : Nat)
    (o : AttemptObs)
    (hv : ∀ k, 400 * k < timeoutMs → overlayVisible k = true)
    (hready : o.homeReady = waitForDisconnectedGone overlayVisible timeoutMs) :
    waitForDisconnectedGone overlayVisible timeoutMs = false
  ∧ waitForHomeReady true overlayVisible timeoutMs = Except.ok false
  ∧ (attemptResult o).status = Status.FAIL_UNKNOWN
  ∧ (attemptResult o).status ≠ Status.FAIL_INVALID := by
  have hfalse : waitForDisconnectedGone overlayVisible timeoutMs = false :=
    wfdgAux_all_visible overlayVisible timeoutMs hv _ 0
  have hhome : o.homeReady = false := hready.trans hfalse
  have hres : attemptResult o = { status := Status.FAIL_UNKNOWN, success := false } := by
    unfold attemptResult
    rw [hhome]
    rfl
  refine ⟨hfalse, ?_, ?_, ?_⟩
  · unfold waitForHomeReady
    rw [if_pos rfl, hfalse]
  · rw [hres]
  · rw [hres]; simp

/-- One navigation action performed on the browser by the router. -/
inductive NavAction where
  | gotoUrl (url : List Char)
  | setHash (h : List Char)
  | clickHref (href : List Char)
deriving DecidableEq

/-- The automation surface consumed by gotoLoginPage, over an abstract page
state: the navigation and click effects, and the observations the routine
reads (not-found detection, tab and link visibility, link targets, and the
visibility of the username input). -/
structure Browser (σ : Type) where
  gotoBase : σ → σ
  setHash : List Char → σ → σ
  clickHref : List Char → σ → σ
  isNotFound : σ → Bool
  authTabVisible : σ → Bool
  authTabHref : σ → Option (List Char)
  userVisible : σ → Bool
  loginVisible : σ → Bool
  loginHref : σ → Option (List Char)

/-- The hash character as a one-character string. -/
def hashMark : List Char := "#".data

/-- Retry step of gotoHash (login.js lines 870 to 874): when the page is a
not-found page, reload the origin root and set the hash again. -/
def navRetry {σ : Type} (B : Browser σ) (base h : List Char) (s : σ) :
    σ × List NavAction :=
  if B.isNotFound s then
    (B.setHash h (B.gotoBase s), [NavAction.gotoUrl base, NavAction.setHash h])
  else (s, [])

/-- Authentication-tab step of gotoHash (login.js lines 876 to 884): the tab
is clicked ONLY when its href contains the hash character. -/
def navAuthTab {σ : Type} (B : Browser σ) (s : σ) : σ × List NavAction :=
  if B.authTabVisible s then
    match B.authTabHref s with
    | some href =>
      if occursIn hashMark href then (B.clickHref href s, [NavAction.clickHref href])
      else (s, [])
    | none => (s, [])
  else (s, [])

/-- Result of one gotoHash call. -/
structure HashStepR (σ : Type) where
  state : σ
  ok : Bool
  trace : List NavAction

/-- Embeds gotoHash (login.js lines 861 to 890): reload the origin root, set
the location hash, retry once on a not-found page, follow the
authentication tab only on a hash target, and succeed when the username
input is visible. -/
def gotoHash {σ : Type} (B : Browser σ) (base h : List Char) (s : σ) :
    HashStepR σ :=
  let s1 := B.setHash h (B.gotoBase s)
  let r2 := navRetry B base h s1
  let r3 := navAuthTab B r2.1
  { state := r3.1
    ok := B.userVisible r3.1
    trace := [NavAction.gotoUrl base, NavAction.setHash h] ++ r2.2 ++ r3.2 }

/-- Result of the loop over the hash aliases. -/
structure TriedR (σ : Type) where
  state : σ
  tried : Option (List Char)
  trace : List NavAction

/-- Embeds the loop over the hash route aliases (login.js lines 893 to
897). -/
def tryHashes {σ : Type} (B : Browser σ) (base : List Char) :
    σ → List (List Char) → TriedR σ
  | s, [] => { state := s, tried := none, trace := [] }
  | s, h :: rest =>
    let r := gotoHash B base h s
    if r.ok then
      { state := r.state, tried := some (base ++ hashMark ++ h), trace := r.trace }
    else
      let rr := tryHashes B base r.state rest
      { state := rr.state, tried := rr.tried, trace := r.trace ++ rr.trace }

/-- The navigation outcome reported by gotoLoginPage. -/
structure NavResult where
  ok : Bool
  href : List Char
  tried : List Char
deriving DecidableEq

/-- The hash route aliases tried in order (login.js line 893). -/
def loginHashes : List (List Char) :=
  ["#/authentication".data, "#/login".data, "#/auth".data, "#/authentication/".data]

/-- Embeds gotoLoginPage of the v9 snapshot (login.js lines 858 to 915):
try the hash aliases; as a last resort click the login link ONLY when its
href contains the hash character; otherwise report failure with the default
fragment target as the tried value. -/
def gotoLoginPage {σ : Type} (B : Browser σ) (base : List Char) (s : σ) :
    NavResult × List NavAction :=
  let r := tryHashes B base s loginHashes
  match r.tried with
  | some tr => ({ ok := true, href := [], tried := tr }, r.trace)
  | none =>
    let fallbackTried := base ++ "#/authentication".data
    if B.loginVisible r.state then
      match B.loginHref r.state with
      | some href =>
        if occursIn hashMark href then
          let s2 := B.clickHref href r.state
          if B.userVisible s2 then
            ({ ok := true, href := href, tried := "click(Login#)".data },
              r.trace ++ [NavAction.clickHref href])
          else
            ({ ok := false, href := [], tried := fallbackTried },
              r.trace ++ [NavAction.clickHref href])
        else ({ ok := false, href := [], tried := fallbackTried }, r.trace)
      | none => ({ ok := false, href := [], tried := fallbackTried }, r.trace)
    else ({ ok := false, href := [], tried := fallbackTried }, r.trace)

/-- A navigation action is fragment-safe when it reloads exactly the origin
base, sets a fragment (a string starting with the hash character), or
clicks a target whose href contains the hash character. -/
def navSafe (base : List Char) : NavAction → Bool
  | NavAction.gotoUrl u => u == base
  | NavAction.setHash h => h.head? == some '#'
  | NavAction.clickHref href => occursIn hashMark href

theorem navRetry_safe {σ : Type} (B : Browser σ) (base h : List Char) (s : σ)
    (hh : (h.head? == some '#') = true) :
    ((navRetry B base h s).2.all (navSafe base)) = true := by
  unfold navRetry
  split
  · simp [navSafe, hh]
  · rfl

theorem navAuthTab_safe {σ : Type} (B : Browser σ) (base : List Char) (s : σ) :
    ((navAuthTab B s).2.all (navSafe base)) = true := by
  unfold navAuthTab
  split
  · split
    · split
      · next href hcase hinc => simp [navSafe, hinc]
      · rfl
    · rfl
  · rfl

theorem gotoHash_safe {σ : Type} (B : Browser σ) (base h : List Char) (s : σ)
    (hh : (h.head? == some '#') = true) :
    ((gotoHash B base h s).trace.all (navSafe base)) = true := by
  unfold gotoHash
  simp only [List.all_append, List.all_cons, List.all_nil]
  rw [navRetry_safe B base h _ hh, navAuthTab_safe B base _]
  simp [navSafe, hh]

theorem tryHashes_safe {σ : Type} (B : Browser σ) (base : List Char) :
    ∀ (hs : List (List Char)) (s : σ),
      (hs.all (fun h => h.head? == some '#')) = true →
      ((tryHashes B base s hs).trace.all (navSafe base)) = true := by
  intro hs
  induction hs with
  | nil => intro s _; rfl
  | cons h rest ih =>
    intro s hall
    rw [List.all_cons] at hall
    obtain ⟨hh, hrest⟩ := Bool.and_eq_true_iff.mp hall
    unfold tryHashes
    dsimp only
    split
    · exact gotoHash_safe B base h s hh
    · simp only [List.all_append]
      rw [gotoHash_safe B base h s hh, ih _ hrest]
      rfl

/-- A concrete page-state machine for the specification scenario: the login
view is shown exactly after the fragment route authentication has been set;
the login affordance is visible but its href is the server path /auth. -/
def demoBrowser : Browser Bool where
  gotoBase := fun _ => false
  setHash := fun h _ => h == "#/authentication".data
  clickHref := fun _ s => s
  isNotFound := fun _ => false
  authTabVisible := fun _ => false
  authTabHref := fun _ => none
  userVisible := fun s => s
  loginVisible := fun _ => true
  loginHref := fun _ => some "/auth".data

/-- The origin base URL used by the scenario. -/
def demoBase : List Char := "https://www.netlib.re/".data

/-- C5: the router only performs fragment-safe navigation: every direct
navigation in any run of gotoLoginPage reloads exactly the origin base or
sets a fragment, and every click targets an href containing the hash
character, for every browser behaviour; moreover, in the concrete scenario
whose login affordance carries the server path /auth, the router reaches
the login view through the first fragment alias, its trace holds no click
at all, and the tried target it reports is a fragment route. -/
theorem router_never_follows_server_path :
    (∀ (σ : Type) (B : Browser σ) (base : List Char) (s : σ),
      ((gotoLoginPage B base s).2.all (navSafe base)) = true)
  ∧ (gotoLoginPage demoBrowser demoBase false).1.ok = true
  ∧ (gotoLoginPage demoBrowser demoBase false).1.tried =
      demoBase ++ hashMark ++ "#/authentication".data
  ∧ (gotoLoginPage demoBrowser demoBase false).2 =
      [NavAction.gotoUrl demoBase, NavAction.setHash "#/authentication".data] := by
  refine ⟨?_, by decide, by decide, by decide⟩
  intro σ B base s
  have hsafe := tryHashes_safe B base loginHashes s (by decide)
  unfold gotoLoginPage
  dsimp only
  split
  · exact hsafe
  · split
    · split
      · split
        · next href hcase hinc =>
          split
          · simp only [List.all_append, List.all_cons, List.all_nil]
            rw [hsafe]
            simp [navSafe, hinc]
          · simp only [List.all_append, List.all_cons, List.all_nil]
            rw [hsafe]
            simp [navSafe, hinc]
        · exact hsafe
      · exact hsafe
    · exact hsafe

/-- One atom of a JavaScript regular expression, as needed for the anchor
pattern: a literal character or the any-character dot. -/
inductive RTok where
  | lit (c : Char)
  | anyChar
deriving DecidableEq

/-- How the regex engine reads one character interpolated from the identity
into the pattern source: the dot becomes the any-character atom, other
characters stay literal.  This models the pattern built at login.js line
1056, where the identity is interpolated into the RegExp source WITHOUT
escaping, for identities whose only metacharacter is the dot. -/
def jsRegexTokenOf (c : Char) : RTok :=
  if c == '.' then RTok.anyChar else RTok.lit c

/-- The anchor-matching pattern of login.js line 1056: the template
contributes the literal prefix and the escaped closing parenthesis, and the
raw identity is read by the regex engine in between. -/
def anchorPatternTokens (user : List Char) : List RTok :=
  ("authenticate (login: ".data.map RTok.lit) ++ user.map jsRegexTokenOf ++
    [RTok.lit ')']

/-- One atom against one character, case-insensitively (the i flag), with
the dot excluding line terminators. -/
def tokMatch : RTok → Char → Bool
  | RTok.lit c, d => lowCode c == lowCode d
  | RTok.anyChar, d => !(d == '\n' || d == '\r' || d == '\u2028' || d == '\u2029')

/-- A token sequence against the head of a text. -/
def tokensMatchAt : List RTok → List Char → Bool
  | [], _ => true
  | _ :: _, [] => false
  | t :: ts, d :: ds => tokMatch t d && tokensMatchAt ts ds

/-- The regex test: the token sequence matches at some position. -/
def regexTest (ts : List RTok) (l : List Char) : Bool :=
  anyPos (tokensMatchAt ts) l

/-- C4 (code-bug evidence): for the identity a.b the pattern built without
escaping also matches the text authenticate (login: aXb), which differs
from the literal anchor of that identity and does not even contain it — so
the pattern does not match exactly the literal anchor text and nothing
else. -/
theorem anchor_pattern_not_escaped :
    regexTest (anchorPatternTokens "a.b".data)
      "authenticate (login: aXb)".data = true
  ∧ "authenticate (login: aXb)".data ≠ anchorOf "a.b".data
  ∧ occursIn (anchorOf "a.b".data) "authenticate (login: aXb)".data = false :=
  ⟨by decide, by decide, by decide⟩

/-- Witness for C7: with the overlay visible at every sample and a 1200ms
window, the wait returns false and the attempt resolves FAIL_UNKNOWN. -/
theorem disconnect_timeout_env_witness :
    waitForDisconnectedGone (fun _ => true) 1200 = false
  ∧ (attemptResult ⟨false, false, true, ⟨true, false, false, false, LogVerdict.NONE⟩⟩).status =
      Status.FAIL_UNKNOWN :=
  ⟨(disconnect_timeout_env (fun _ => true) 1200
      ⟨false, false, true, ⟨true, false, false, false, LogVerdict.NONE⟩⟩
      (fun _ _ => rfl) (by decide)).1,
    (disconnect_timeout_env (fun _ => true) 1200
      ⟨false, false, true, ⟨true, false, false, false, LogVerdict.NONE⟩⟩
      (fun _ _ => rfl) (by decide)).2.2.1⟩
